import Mathlib

set_option maxRecDepth 100000

/- Shallow embedding of the waveform acquisition pipeline of
   `src/HantekDSO2D10.py` (class `HantekDSO2000`, method `get_waveform` with its
   inner helper `readPacket`, lines 57-154).

   Modelling conventions:
   * a Python `bytes` object is a `List Nat` whose entries are byte values 0..255;
   * a Python `int` is `Int`;
   * a Python `float` is `ℚ` — every numeric value appearing in the claims is
     exactly representable in IEEE double precision and the operations involved
     are exact on them, so rational arithmetic agrees with the source;
     infinities and NaN never arise on the inputs considered;
   * a raised Python exception (which `get_waveform` catches at line 152 and
     turns into the `(None, None)` result) is `Option.none`;
   * the optional `progress_callback` is modelled by a trace field recording
     the argument pairs of each invocation. -/

/-- ASCII digit test (`'0'..'9'`), as accepted by Python `int()`/`float()`. -/
def isDigit (b : Nat) : Bool := decide (48 ≤ b ∧ b ≤ 57)

/-- ASCII whitespace bytes stripped by Python numeric parsing. -/
def isWsB (b : Nat) : Bool := decide (b = 32 ∨ b = 9 ∨ b = 10 ∨ b = 13 ∨ b = 11 ∨ b = 12)

/-- Strip leading and trailing ASCII whitespace, as Python `int()`/`float()` do. -/
def stripWs (bs : List Nat) : List Nat :=
  ((bs.dropWhile isWsB).reverse.dropWhile isWsB).reverse

/-- Numeric value of a string of ASCII digits. -/
def digitsVal (bs : List Nat) : Nat := bs.foldl (fun a b => a * 10 + (b - 48)) 0

/-- Parse a nonempty all-digit byte string. -/
def parseDigits (bs : List Nat) : Option Nat :=
  if bs ≠ [] ∧ bs.all isDigit then some (digitsVal bs) else none

/-- Consume an optional leading `'+'` (43) or `'-'` (45); return (isNegative, rest). -/
def parseSign (bs : List Nat) : Bool × List Nat :=
  match bs with
  | [] => (false, [])
  | b :: r => if b = 43 then (false, r) else if b = 45 then (true, r) else (false, bs)

/-- Python `int()` applied to a byte string: optional surrounding whitespace, an
    optional sign, then at least one decimal digit.  `none` models a raised
    `ValueError`. -/
def parsePyInt (bs : List Nat) : Option Int :=
  let pr := parseSign (stripWs bs)
  (parseDigits pr.2).map (fun n => if pr.1 then -(n : Int) else (n : Int))

/-- Split a list at the first element satisfying `p`, dropping the separator. -/
def splitAtFirst (p : Nat → Bool) : List Nat → Option (List Nat × List Nat)
  | [] => none
  | b :: r =>
    if p b then some ([], r)
    else (splitAtFirst p r).map (fun q => (b :: q.1, q.2))

/-- Unsigned mantissa of a Python float literal: digits with an optional single
    `'.'` (46); at least one digit must be present. -/
def parseUFloat (bs : List Nat) : Option ℚ :=
  match splitAtFirst (fun b => decide (b = 46)) bs with
  | none => (parseDigits bs).map (fun n => (n : ℚ))
  | some q =>
    if (q.1 ≠ [] ∨ q.2 ≠ []) ∧ q.1.all isDigit ∧ q.2.all isDigit then
      some ((digitsVal q.1 : ℚ) + (digitsVal q.2 : ℚ) / (10 : ℚ) ^ q.2.length)
    else none

/-- Exponent part of a Python float literal: optional sign, then digits. -/
def parseExp (bs : List Nat) : Option Int :=
  let pr := parseSign bs
  (parseDigits pr.2).map (fun n => if pr.1 then -(n : Int) else (n : Int))

/-- Python `float()` applied to a byte string: optional surrounding whitespace,
    optional sign, mantissa, optional `e`/`E` (101/69) exponent.  (The `inf`/
    `nan` spellings accepted by Python have no rational counterpart and never
    occur in the data considered here.)  `none` models a raised `ValueError`. -/
def parsePyFloat (bs : List Nat) : Option ℚ :=
  let pr := parseSign (stripWs bs)
  let m : Option ℚ :=
    match splitAtFirst (fun b => decide (b = 101 ∨ b = 69)) pr.2 with
    | none => parseUFloat pr.2
    | some q =>
      (parseUFloat q.1).bind (fun mq =>
        (parseExp q.2).map (fun e => mq * (10 : ℚ) ^ e))
  m.map (fun q => if pr.1 then -q else q)

/-- The mutable state closed over by `readPacket` (lines 61-64): `samples_total`
    starts at `-1`, `samples_data` and `meta` start as empty byte strings and
    `samples_got` at `0`.  The `progress` field is the trace of
    `progress_callback(samples_got, samples_total)` invocations (line 101). -/
structure RxState where
  samples_total : Int
  samples_data : List Nat
  samples_got : Int
  meta : List Nat
  progress : List (Int × Int)
deriving DecidableEq

def initState : RxState := ⟨-1, [], 0, [], []⟩

/-- Python `bytearray` item assignment `data[idx] = v` (line 96): negative
    indices count from the end, an out-of-range index raises `IndexError`, and
    a value outside 0..255 raises `ValueError`. -/
def pyWriteByte (data : List Nat) (idx : Int) (v : Nat) : Option (List Nat) :=
  if 256 ≤ v then none
  else
    let j := if idx < 0 then idx + (data.length : Int) else idx
    if 0 ≤ j ∧ j < (data.length : Int) then some (data.set j.toNat v) else none

/-- The copy loop of lines 95-96: write the payload bytes one by one starting
    at position `pos`. -/
def writeAt (data : List Nat) (pos : Int) (payload : List Nat) : Option (List Nat) :=
  match payload with
  | [] => some data
  | v :: rest => (pyWriteByte data pos v).bind (fun d => writeAt d (pos + 1) rest)

/-- Lines 94-103: compute `cur_len = len(inp) - 128`, copy the payload bytes
    `inp[128:]` into `samples_data` at `cur_pos`, add `cur_len` to
    `samples_got`, invoke the progress callback, and return
    `samples_got == samples_total`. -/
def finishPacket (inp : List Nat) (cur_pos : Int) (st : RxState) : Option (Bool × RxState) :=
  let cur_len : Int := (inp.length : Int) - 128
  (writeAt st.samples_data cur_pos (inp.drop 128)).map (fun data' =>
    let got' := st.samples_got + cur_len
    (decide (got' = st.samples_total),
     { st with samples_data := data'
               samples_got := got'
               progress := st.progress ++ [(got', st.samples_total)] }))

/-- Lines 76-103 of `readPacket`, after the marker check: parse the three
    9-digit ASCII header fields, treat a declared zero chunk length as
    "not done" (line 77-78), allocate the buffer and capture the metadata
    region on the first packet (lines 86-89), reject a later packet whose
    declared total differs (lines 90-92), and otherwise copy the payload. -/
def readPacketBody (inp : List Nat) (st : RxState) : Option (Bool × RxState) :=
  (parsePyInt ((inp.drop 2).take 9)).bind (fun this_len =>
    if this_len = 0 then some (false, st)
    else
      (parsePyInt ((inp.drop 11).take 9)).bind (fun total_smpls =>
        (parsePyInt ((inp.drop 20).take 9)).bind (fun cur_pos =>
          if st.samples_total = -1 then
            if total_smpls < 0 then none
            else
              finishPacket inp cur_pos
                { st with samples_total := total_smpls
                          samples_data := List.replicate total_smpls.toNat 0
                          meta := (inp.drop 29).take 99 }
          else if st.samples_total ≠ total_smpls then some (false, st)
          else finishPacket inp cur_pos st)))

/-- Lines 67-103: one `readPacket()` call on response `inp`.  `none` is a raised
    exception; `some (done, st')` is the Boolean return value together with the
    updated closure state.  The marker check of line 73 short-circuits like the
    Python `or`: `inp[0]` and `inp[1]` each raise `IndexError` on a too-short
    response only when actually evaluated. -/
def readPacket (inp : List Nat) (st : RxState) : Option (Bool × RxState) :=
  match inp with
  | [] => none
  | b0 :: tail =>
    if b0 ≠ 35 then some (false, st)
    else
      match tail with
      | [] => none
      | b1 :: _ =>
        if b1 ≠ 57 then some (false, st)
        else readPacketBody (b0 :: tail) st

/-- The packet loop of lines 106-107, `while not readPacket(): pass`, reading
    the `k`-th, `k+1`-th, ... responses of the stream `resp`.  The loop itself
    has no bound; `fuel` only limits how far we unroll it.  `none` = exception;
    `some none` = after `fuel` reads the loop is still running;
    `some (some st)` = the loop exited with final state `st`. -/
def runLoop (resp : Nat → List Nat) (st : RxState) (k fuel : Nat) :
    Option (Option RxState) :=
  match fuel with
  | 0 => some none
  | fuel' + 1 =>
    match readPacket (resp k) st with
    | none => none
    | some (true, st') => some (some st')
    | some (false, st') => runLoop resp st' (k + 1) fuel'

/-- Decoded metadata as used downstream of line 110: only the enabled-channel
    count (line 117), the sampling rate (lines 120-123) and the trigger-time
    offset (lines 126-130) are consumed by the rest of `get_waveform`; the
    remaining unpacked fields are dead. -/
structure MetaRec where
  channel_count : Int
  sr : ℚ
  tt : ℚ
deriving DecidableEq

/-- Lines 110-130.  `struct.unpack('cc 16x 7s7s7s7s cccc 9s 6s 9x 9s 6s 10x', meta)`
    requires `meta` to be exactly 99 bytes and places the channel-enabled flag
    bytes at offsets 46-49, the 9-byte ASCII sampling rate at 50-58 and the
    9-byte ASCII trigger time at 74-82.  `channel_count` is
    `int(c1e)+int(c2e)+int(c3e)+int(c4e)`, where Python `int()` on a one-byte
    bytes object parses it as an ASCII digit (raising `ValueError` otherwise).
    The sampling rate is parsed with `float()`; the source tries
    `float(field.decode())` and falls back to `float(field)`, two attempts that
    accept exactly the same strings, so a single parse models both; on failure
    the exception escapes (`none`).  The trigger time is parsed the same way
    but its `except:` clause substitutes `0.0` on failure (line 130). -/
def decodeMeta (meta : List Nat) : Option MetaRec :=
  if meta.length = 99 then
    match parsePyInt [meta.getD 46 0], parsePyInt [meta.getD 47 0],
          parsePyInt [meta.getD 48 0], parsePyInt [meta.getD 49 0] with
    | some n1, some n2, some n3, some n4 =>
      match parsePyFloat ((meta.drop 50).take 9) with
      | some sr =>
        some ⟨n1 + n2 + n3 + n4, sr, (parsePyFloat ((meta.drop 74).take 9)).getD 0⟩
      | none => none
    | _, _, _, _ => none
  else none

/-- The fixed per-channel block size of line 133. -/
def block_len : Nat := 2000

/-- `struct.unpack('%db' % block_len, ...)`: a byte reinterpreted as a signed
    8-bit integer. -/
def toSigned (b : Nat) : Int := if b < 128 then (b : Int) else (b : Int) - 256

/-- The loop of lines 136-137: `for i in range(start, len(samples_data), step)`
    with `step = block_len * channel_count`.  Each iteration unpacks the slice
    `samples_data[i:i+block_len]` with format `'2000b'`, which raises
    `struct.error` unless the slice is exactly `block_len` bytes.  A zero step
    (`channel_count == 0`) makes `range` itself raise `ValueError`. -/
def extractBlocks (data : List Nat) (step i : Nat) : Option (List Int) :=
  if 0 < step then
    if i < data.length then
      let block := (data.drop i).take block_len
      if block.length = block_len then
        (extractBlocks data step (i + step)).map (fun rest => block.map toSigned ++ rest)
      else none
    else some []
  else none
termination_by data.length - i
decreasing_by omega

/-- Lines 133-137: extract channel `ch` (1-based, as used by the callers with
    `ch ∈ {1, 2}`) from the reassembled buffer given the enabled-channel
    count. -/
def extractChannel (data : List Nat) (ch count : Nat) : Option (List Int) :=
  extractBlocks data (block_len * count) ((ch - 1) * block_len)

/-- The fixed vertical-grid-divisions constant of line 144. -/
def grid_y : ℚ := 25

/-- Line 145: `voltaje = [v / grid_y * scale - offset for v in samples]`. -/
def voltsOf (samples : List Int) (scale offset : ℚ) : List ℚ :=
  samples.map (fun v : Int => (v : ℚ) / grid_y * scale - offset)

/-- Line 148: `tiempo = [i / sr - tt for i in range(len(samples))]`. -/
def timesOf (n : Nat) (sr tt : ℚ) : List ℚ :=
  (List.range n).map (fun i : Nat => (i : ℚ) / sr - tt)

/-- Observable outcome of one `get_waveform` call.  `failed` is the
    `return None, None` of line 154 (every caught exception collapses to it);
    `looping` is the model artifact of running out of unrolling fuel while the
    `while not readPacket(): pass` loop is still spinning. -/
inductive PyResult where
  | looping
  | failed
  | ok (tiempo voltaje : List ℚ)
deriving DecidableEq

/-- The caller-side test `t is None` (line 350 / 421-428 use the returned pair
    only through this check and its length). -/
def returnsNone : PyResult → Bool
  | .failed => true
  | _ => false

/-- Lines 57-154, `get_waveform(ch)` end to end: run the packet loop over the
    response stream `resp`, decode the captured metadata, extract the requested
    channel, and calibrate.  `offset` and `scale` stand for the already-parsed
    replies of the two `query` read-backs of lines 140-141.  Python float
    division by `sr = 0.0` raises `ZeroDivisionError`, hence the explicit
    guard. -/
def get_waveform (resp : Nat → List Nat) (fuel ch : Nat) (offset scale : ℚ) : PyResult :=
  match runLoop resp initState 0 fuel with
  | none => .failed
  | some none => .looping
  | some (some st) =>
    match decodeMeta st.meta with
    | none => .failed
    | some md =>
      match extractChannel st.samples_data ch md.channel_count.toNat with
      | none => .failed
      | some samples =>
        if md.sr = 0 ∧ samples.length ≠ 0 then .failed
        else .ok (timesOf samples.length md.sr md.tt) (voltsOf samples scale offset)

/-- Encode `n` as the 9-digit zero-padded ASCII decimal used by the wire
    format's header fields. -/
def enc9 (n : Nat) : List Nat :=
  (List.range 9).reverse.map (fun i => 48 + n / 10 ^ i % 10)

/-- A well-formed response packet: marker `'#''9'`, the three 9-digit header
    fields (declared chunk length, declared total, write offset), the 99-byte
    metadata region, then the payload. -/
def mkResponse (metaB : List Nat) (total pos : Nat) (p : List Nat) : List Nat :=
  35 :: 57 :: (enc9 p.length ++ enc9 total ++ enc9 pos ++ metaB ++ p)

/-- Sum of the lengths of the first `k` payloads: the write offset at which the
    `k`-th packet of an in-order tiling transfer lands. -/
def sumTo (ps : List (List Nat)) (k : Nat) : Nat :=
  ((ps.take k).map List.length).sum

/-- The response stream of an in-order tiling transfer carrying the payload
    list `ps`: the `k`-th response declares total `sumTo ps ps.length`, write
    offset `sumTo ps k`, and carries payload `ps[k]`. -/
def tileStream (metaB : List Nat) (ps : List (List Nat)) (k : Nat) : List Nat :=
  mkResponse metaB (sumTo ps ps.length) (sumTo ps k) (ps.getD k [])

/-- A well-formed 99-byte metadata region: channel-enabled flags `"1000"` at
    offsets 46-49, sampling rate `"1.000E+08"` at offsets 50-58, ASCII zeros
    elsewhere (so the trigger-time field reads `"000000000"`). -/
def metaGood : List Nat :=
  List.replicate 46 48 ++ [49, 48, 48, 48] ++
    [49, 46, 48, 48, 48, 69, 43, 48, 56] ++ List.replicate 40 48

/-- A metadata region whose 9-byte trigger-time field (offsets 74-82) is the
    unparseable ASCII text `"XXXXXXXXX"`; everything else as in `metaGood`. -/
def metaTTbad : List Nat :=
  List.replicate 46 48 ++ [49, 48, 48, 48] ++
    [49, 46, 48, 48, 48, 69, 43, 48, 56] ++
    List.replicate 15 48 ++ List.replicate 9 88 ++ List.replicate 16 48

/-- A metadata region whose 9-byte sampling-rate field (offsets 50-58) is the
    unparseable ASCII text `"XXXXXXXXX"`. -/
def metaSRbad : List Nat :=
  List.replicate 46 48 ++ [49, 48, 48, 48] ++ List.replicate 9 88 ++ List.replicate 40 48

/-- A response stream for a transfer whose second packet declares
    `total_samples = 7` although the first declared `6`: packets carry
    payloads `[1,2,3]` at offset 0, `[9,9,9]` at offset 3 (mismatching total),
    and `[4,5,6]` at offset 3. -/
def mismatchStream : Nat → List Nat := fun k =>
  match k with
  | 0 => mkResponse metaGood 6 0 [1, 2, 3]
  | 1 => mkResponse metaGood 7 3 [9, 9, 9]
  | _ => mkResponse metaGood 6 3 [4, 5, 6]

/-- A response with a valid marker whose declared chunk length is the ASCII
    string `"000000000"` (instrument not ready; the payload fields are absent). -/
def zeroResp : List Nat := 35 :: 57 :: List.replicate 9 48

/-- A response that does not start with the `'#','9'` marker pair. -/
def badResp : List Nat := [65, 66]

/-- A response stream whose declared-chunk-length field is the unparseable
    ASCII text `"AAAAAAAAA"` (a header-parse failure raising `ValueError`). -/
def streamA : Nat → List Nat := fun _ => 35 :: 57 :: List.replicate 9 65

/-- A response stream delivering a complete 2-byte transfer whose metadata
    has an unparseable sampling-rate field. -/
def streamB : Nat → List Nat := fun _ => mkResponse metaSRbad 2 0 [7, 8]

/-- A response stream delivering a complete transfer with
    `total_samples = 0`: a 128-byte response (declared chunk length 1, no
    payload bytes) with well-formed metadata — a legitimately empty capture. -/
def streamEmpty : Nat → List Nat := fun _ =>
  35 :: 57 :: (enc9 1 ++ enc9 0 ++ enc9 0 ++ metaGood)

lemma dropWhile_of_head_false {p : Nat → Bool} : ∀ {l : List Nat},
    (∀ b ∈ l, p b = false) → l.dropWhile p = l
  | [], _ => rfl
  | b :: r, h => by
    have hb : p b = false := h b (List.mem_cons_self b r)
    simp [List.dropWhile_cons, hb]

lemma stripWs_of_digits {l : List Nat} (h : ∀ b ∈ l, isDigit b = true) :
    stripWs l = l := by
  have hws : ∀ b ∈ l, isWsB b = false := by
    intro b hb
    have := h b hb
    simp [isDigit] at this
    simp [isWsB]
    omega
  unfold stripWs
  rw [dropWhile_of_head_false hws]
  rw [dropWhile_of_head_false (by intro b hb; exact hws b (List.mem_reverse.mp hb))]
  exact List.reverse_reverse l

lemma parseSign_not {b : Nat} {r : List Nat} (h1 : b ≠ 43) (h2 : b ≠ 45) :
    parseSign (b :: r) = (false, b :: r) := by
  simp only [parseSign]
  rw [if_neg h1, if_neg h2]

lemma parsePyInt_digits {l : List Nat} (h0 : l ≠ []) (h : ∀ b ∈ l, isDigit b = true) :
    parsePyInt l = some ((digitsVal l : Nat) : Int) := by
  unfold parsePyInt
  rw [stripWs_of_digits h]
  obtain ⟨b, r, rfl⟩ : ∃ b r, l = b :: r := by
    cases l with
    | nil => exact absurd rfl h0
    | cons b r => exact ⟨b, r, rfl⟩
  have hb := h b (List.mem_cons_self b r)
  simp only [isDigit, decide_eq_true_eq] at hb
  rw [parseSign_not (by omega) (by omega)]
  unfold parseDigits
  have hr : ∀ x ∈ r, isDigit x = true := fun x hx => h x (List.mem_cons_of_mem b hx)
  simp only [List.all_eq_true, List.cons_ne_nil, ne_eq, not_false_eq_true, true_and]
  rw [if_pos h]
  rfl

lemma enc9_explicit (n : Nat) : enc9 n =
    [48 + n / 100000000 % 10, 48 + n / 10000000 % 10, 48 + n / 1000000 % 10,
     48 + n / 100000 % 10, 48 + n / 10000 % 10, 48 + n / 1000 % 10,
     48 + n / 100 % 10, 48 + n / 10 % 10, 48 + n / 1 % 10] := rfl

lemma enc9_digits (n : Nat) : ∀ b ∈ enc9 n, isDigit b = true := by
  rw [enc9_explicit]
  intro b hb
  simp only [List.mem_cons, List.not_mem_nil, or_false] at hb
  simp only [isDigit, decide_eq_true_eq]
  rcases hb with h | h | h | h | h | h | h | h | h <;> subst h <;> omega

lemma enc9_length (n : Nat) : (enc9 n).length = 9 := by rw [enc9_explicit]; rfl

lemma digitsVal_enc9 {n : Nat} (h : n < 10 ^ 9) : digitsVal (enc9 n) = n := by
  have h' : n < 1000000000 := by omega
  have s8 : 0 * 10 + (48 + n / 100000000 % 10 - 48) = n / 100000000 := by omega
  have s7 : n / 100000000 * 10 + (48 + n / 10000000 % 10 - 48) = n / 10000000 := by omega
  have s6 : n / 10000000 * 10 + (48 + n / 1000000 % 10 - 48) = n / 1000000 := by omega
  have s5 : n / 1000000 * 10 + (48 + n / 100000 % 10 - 48) = n / 100000 := by omega
  have s4 : n / 100000 * 10 + (48 + n / 10000 % 10 - 48) = n / 10000 := by omega
  have s3 : n / 10000 * 10 + (48 + n / 1000 % 10 - 48) = n / 1000 := by omega
  have s2 : n / 1000 * 10 + (48 + n / 100 % 10 - 48) = n / 100 := by omega
  have s1 : n / 100 * 10 + (48 + n / 10 % 10 - 48) = n / 10 := by omega
  have s0 : n / 10 * 10 + (48 + n / 1 % 10 - 48) = n := by omega
  rw [enc9_explicit]
  unfold digitsVal
  simp only [List.foldl]
  rw [s8, s7, s6, s5, s4, s3, s2, s1, s0]

lemma enc9_ne_nil (n : Nat) : enc9 n ≠ [] := by rw [enc9_explicit]; simp

lemma parsePyInt_enc9 {n : Nat} (h : n < 10 ^ 9) : parsePyInt (enc9 n) = some (n : Int) := by
  rw [parsePyInt_digits (enc9_ne_nil n) (enc9_digits n), digitsVal_enc9 h]


lemma mkResponse_eq (metaB p : List Nat) (T pos : Nat) :
    mkResponse metaB T pos p =
      35 :: 57 :: (enc9 p.length ++ (enc9 T ++ (enc9 pos ++ (metaB ++ p)))) := by
  simp [mkResponse, List.append_assoc]

lemma mkResponse_length {metaB : List Nat} (hm : metaB.length = 99) (p : List Nat) (T pos : Nat) :
    (mkResponse metaB T pos p).length = 128 + p.length := by
  rw [mkResponse_eq]
  simp [enc9_length, hm]
  omega

lemma mk_drop2 (metaB p : List Nat) (T pos : Nat) :
    (mkResponse metaB T pos p).drop 2 =
      enc9 p.length ++ (enc9 T ++ (enc9 pos ++ (metaB ++ p))) := by
  rw [mkResponse_eq]; rfl

lemma mk_drop11 (metaB p : List Nat) (T pos : Nat) :
    (mkResponse metaB T pos p).drop 11 = enc9 T ++ (enc9 pos ++ (metaB ++ p)) := by
  have h : ((mkResponse metaB T pos p).drop 2).drop 9 = (mkResponse metaB T pos p).drop 11 := by
    rw [List.drop_drop]
  rw [← h, mk_drop2, List.drop_left' (enc9_length _)]

lemma mk_drop20 (metaB p : List Nat) (T pos : Nat) :
    (mkResponse metaB T pos p).drop 20 = enc9 pos ++ (metaB ++ p) := by
  have h : ((mkResponse metaB T pos p).drop 11).drop 9 = (mkResponse metaB T pos p).drop 20 := by
    rw [List.drop_drop]
  rw [← h, mk_drop11, List.drop_left' (enc9_length _)]

lemma mk_drop29 (metaB p : List Nat) (T pos : Nat) :
    (mkResponse metaB T pos p).drop 29 = metaB ++ p := by
  have h : ((mkResponse metaB T pos p).drop 20).drop 9 = (mkResponse metaB T pos p).drop 29 := by
    rw [List.drop_drop]
  rw [← h, mk_drop20, List.drop_left' (enc9_length _)]

lemma mk_field1 (metaB p : List Nat) (T pos : Nat) :
    ((mkResponse metaB T pos p).drop 2).take 9 = enc9 p.length := by
  rw [mk_drop2]; exact List.take_left' (enc9_length _)

lemma mk_field2 (metaB p : List Nat) (T pos : Nat) :
    ((mkResponse metaB T pos p).drop 11).take 9 = enc9 T := by
  rw [mk_drop11]; exact List.take_left' (enc9_length _)

lemma mk_field3 (metaB p : List Nat) (T pos : Nat) :
    ((mkResponse metaB T pos p).drop 20).take 9 = enc9 pos := by
  rw [mk_drop20]; exact List.take_left' (enc9_length _)

lemma mk_meta {metaB : List Nat} (hm : metaB.length = 99) (p : List Nat) (T pos : Nat) :
    ((mkResponse metaB T pos p).drop 29).take 99 = metaB := by
  rw [mk_drop29]; exact List.take_left' hm

lemma mk_payload {metaB : List Nat} (hm : metaB.length = 99) (p : List Nat) (T pos : Nat) :
    (mkResponse metaB T pos p).drop 128 = p := by
  have h : ((mkResponse metaB T pos p).drop 29).drop 99 = (mkResponse metaB T pos p).drop 128 := by
    rw [List.drop_drop]
  rw [← h, mk_drop29, List.drop_left' hm]

lemma set_append_len {α : Type} (acc : List α) (b v : α) (tail : List α) :
    (acc ++ b :: tail).set acc.length v = acc ++ v :: tail := by
  induction acc with
  | nil => rfl
  | cons a r ih => simp [List.set, ih]

lemma pyWriteByte_append {acc tail : List Nat} {b v : Nat} (hv : v < 256) :
    pyWriteByte (acc ++ b :: tail) (acc.length : Int) v = some (acc ++ v :: tail) := by
  simp only [pyWriteByte]
  rw [if_neg (show ¬(256 ≤ v) by omega)]
  rw [if_neg (show ¬((acc.length : Int) < 0) by omega)]
  rw [if_pos (show 0 ≤ (acc.length : Int) ∧
        (acc.length : Int) < ((acc ++ b :: tail).length : Int) by
      constructor
      · omega
      · simp)]
  rw [Int.toNat_natCast, set_append_len]

lemma writeAt_fill : ∀ (p acc : List Nat) (r : Nat),
    p.length ≤ r → (∀ b ∈ p, b < 256) →
    writeAt (acc ++ List.replicate r 0) (acc.length : Int) p =
      some ((acc ++ p) ++ List.replicate (r - p.length) 0)
  | [], acc, r, _, _ => by simp [writeAt]
  | v :: rest, acc, r, hlen, hb => by
    obtain ⟨r', rfl⟩ : ∃ r', r = r' + 1 := ⟨r - 1, by simp at hlen; omega⟩
    rw [List.replicate_succ]
    simp only [writeAt]
    rw [pyWriteByte_append (hb v (List.mem_cons_self v rest))]
    rw [Option.some_bind]
    have h1 : acc ++ v :: List.replicate r' 0 = (acc ++ [v]) ++ List.replicate r' 0 := by simp
    have h2 : ((acc.length : Int) + 1) = (((acc ++ [v]).length : Nat) : Int) := by
      simp
    rw [h1, h2, writeAt_fill rest (acc ++ [v]) r' (by simp at hlen; omega)
          (fun b hb' => hb b (List.mem_cons_of_mem v hb'))]
    have h3 : r' + 1 - (v :: rest).length = r' - rest.length := by simp
    have h4 : (acc ++ [v]) ++ rest = acc ++ v :: rest := by simp
    rw [h3, h4]

lemma finishPacket_mk {metaB : List Nat} (hm : metaB.length = 99) (p acc : List Nat)
    (T r : Nat) (st : RxState)
    (hdata : st.samples_data = acc ++ List.replicate r 0)
    (hlen : p.length ≤ r) (hbytes : ∀ b ∈ p, b < 256) :
    finishPacket (mkResponse metaB T acc.length p) ((acc.length : Nat) : Int) st =
      some (decide (st.samples_got + (p.length : Int) = st.samples_total),
            { st with samples_data := (acc ++ p) ++ List.replicate (r - p.length) 0,
                      samples_got := st.samples_got + (p.length : Int),
                      progress := st.progress ++
                        [(st.samples_got + (p.length : Int), st.samples_total)] }) := by
  unfold finishPacket
  rw [mk_payload hm, hdata, writeAt_fill p acc r hlen hbytes]
  have hl : ((mkResponse metaB T acc.length p).length : Int) - 128 = (p.length : Int) := by
    rw [mkResponse_length hm]
    push_cast
    ring
  simp [hl]

lemma readPacket_mk_step (metaB p : List Nat) (T pos : Nat) (st : RxState) :
    readPacket (mkResponse metaB T pos p) st = readPacketBody (mkResponse metaB T pos p) st := by
  conv_lhs => rw [mkResponse_eq]
  simp only [readPacket]
  norm_num
  rw [← mkResponse_eq]

lemma readPacketBody_mk_first {metaB : List Nat} (hm : metaB.length = 99) {p : List Nat}
    (T pos : Nat) (st : RxState)
    (hp : p ≠ []) (hpl : p.length < 10 ^ 9) (hT : T < 10 ^ 9) (hpos : pos < 10 ^ 9)
    (hst : st.samples_total = -1) :
    readPacketBody (mkResponse metaB T pos p) st =
      finishPacket (mkResponse metaB T pos p) (pos : Int)
        { st with samples_total := (T : Int),
                  samples_data := List.replicate T 0,
                  meta := metaB } := by
  have hp0 : p.length ≠ 0 := by simpa using hp
  unfold readPacketBody
  rw [mk_field1, parsePyInt_enc9 hpl, Option.some_bind]
  rw [if_neg (show ¬((p.length : Nat) : Int) = 0 by omega)]
  rw [mk_field2, parsePyInt_enc9 hT, Option.some_bind]
  rw [mk_field3, parsePyInt_enc9 hpos, Option.some_bind]
  rw [if_pos hst]
  rw [if_neg (show ¬((T : Nat) : Int) < 0 by omega)]
  rw [mk_meta hm]
  simp

lemma readPacketBody_mk_next {metaB : List Nat} {p : List Nat}
    (T pos : Nat) (st : RxState)
    (hp : p ≠ []) (hpl : p.length < 10 ^ 9) (hT : T < 10 ^ 9) (hpos : pos < 10 ^ 9)
    (hst : st.samples_total = (T : Int)) :
    readPacketBody (mkResponse metaB T pos p) st =
      finishPacket (mkResponse metaB T pos p) (pos : Int) st := by
  have hp0 : p.length ≠ 0 := by simpa using hp
  unfold readPacketBody
  rw [mk_field1, parsePyInt_enc9 hpl, Option.some_bind]
  rw [if_neg (show ¬((p.length : Nat) : Int) = 0 by omega)]
  rw [mk_field2, parsePyInt_enc9 hT, Option.some_bind]
  rw [mk_field3, parsePyInt_enc9 hpos, Option.some_bind]
  rw [if_neg (show ¬(st.samples_total = -1) by rw [hst]; omega)]
  rw [if_neg (show ¬(st.samples_total ≠ ((T : Nat) : Int)) from not_not_intro hst)]

lemma readPacketBody_mk_mismatch {metaB : List Nat} {p : List Nat}
    (T pos : Nat) (st : RxState)
    (hp : p ≠ []) (hpl : p.length < 10 ^ 9) (hT : T < 10 ^ 9) (hpos : pos < 10 ^ 9)
    (hne1 : st.samples_total ≠ -1) (hne2 : st.samples_total ≠ (T : Int)) :
    readPacketBody (mkResponse metaB T pos p) st = some (false, st) := by
  have hp0 : p.length ≠ 0 := by simpa using hp
  unfold readPacketBody
  rw [mk_field1, parsePyInt_enc9 hpl, Option.some_bind]
  rw [if_neg (show ¬((p.length : Nat) : Int) = 0 by omega)]
  rw [mk_field2, parsePyInt_enc9 hT, Option.some_bind]
  rw [mk_field3, parsePyInt_enc9 hpos, Option.some_bind]
  rw [if_neg hne1]
  rw [if_pos hne2]

lemma runLoop_zero (resp : Nat → List Nat) (st : RxState) (k : Nat) :
    runLoop resp st k 0 = some none := rfl

lemma runLoop_succ_false {resp : Nat → List Nat} {st st' : RxState} {k : Nat} (fuel : Nat)
    (h : readPacket (resp k) st = some (false, st')) :
    runLoop resp st k (fuel + 1) = runLoop resp st' (k + 1) fuel := by
  simp [runLoop, h]

lemma runLoop_succ_true {resp : Nat → List Nat} {st st' : RxState} {k : Nat} (fuel : Nat)
    (h : readPacket (resp k) st = some (true, st')) :
    runLoop resp st k (fuel + 1) = some (some st') := by
  simp [runLoop, h]

lemma sumTo_zero (ps : List (List Nat)) : sumTo ps 0 = 0 := by simp [sumTo]

lemma sumTo_cons_succ (p : List Nat) (rest : List (List Nat)) (j : Nat) :
    sumTo (p :: rest) (j + 1) = p.length + sumTo rest j := by
  simp [sumTo]

lemma runLoop_tiles :
    ∀ (ps : List (List Nat)) (resp : Nat → List Nat) (k : Nat) (metaB acc : List Nat)
      (T : Nat) (st : RxState),
    ps ≠ [] →
    metaB.length = 99 →
    (∀ j, j < ps.length →
      resp (k + j) = mkResponse metaB T (acc.length + sumTo ps j) (ps.getD j [])) →
    (∀ p ∈ ps, p ≠ [] ∧ (∀ b ∈ p, b < 256)) →
    T = acc.length + ((ps.map List.length).sum) →
    T < 10 ^ 9 →
    st.samples_total = (T : Int) →
    st.samples_data = acc ++ List.replicate ((ps.map List.length).sum) 0 →
    st.samples_got = (acc.length : Int) →
    runLoop resp st k ps.length =
      some (some { st with
        samples_data := acc ++ ps.join,
        samples_got := (T : Int),
        progress := st.progress ++
          (List.range ps.length).map
            (fun j => ((acc.length : Int) + ((sumTo ps (j + 1) : Nat) : Int), (T : Int))) })
  | [], _, _, _, _, _, _, hne, _, _, _, _, _, _, _, _ => absurd rfl hne
  | p :: rest, resp, k, metaB, acc, T, st, _, hm, hresp, hok, hT, hT9, hst, hdata, hgot => by
    have hp : p ≠ [] := (hok p (List.mem_cons_self p rest)).1
    have hpb : ∀ b ∈ p, b < 256 := (hok p (List.mem_cons_self p rest)).2
    have hsum : (List.map List.length (p :: rest)).sum =
        p.length + (List.map List.length rest).sum := by simp
    have hp9 : p.length < 10 ^ 9 := by omega
    have hpos9 : acc.length < 10 ^ 9 := by omega
    have hr0' : resp k = mkResponse metaB T acc.length p := by
      have h0 := hresp 0 (by simp)
      simpa [sumTo_zero] using h0
    have hread : readPacket (resp k) st =
        some (decide (st.samples_got + (p.length : Int) = st.samples_total),
              { st with
                samples_data := (acc ++ p) ++
                  List.replicate ((List.map List.length (p :: rest)).sum - p.length) 0,
                samples_got := st.samples_got + (p.length : Int),
                progress := st.progress ++
                  [(st.samples_got + (p.length : Int), st.samples_total)] }) := by
      rw [hr0', readPacket_mk_step,
        readPacketBody_mk_next T acc.length st hp hp9 (by omega) hpos9 hst,
        finishPacket_mk hm p acc T ((List.map List.length (p :: rest)).sum) st hdata
          (by omega) hpb]
    cases rest with
    | nil =>
      have hs1 : (List.map List.length [p]).sum = p.length := by simp
      have hdone : st.samples_got + (p.length : Int) = st.samples_total := by
        rw [hst, hgot, hT, hs1]
        push_cast
        ring
      have hread' : readPacket (resp k) st = some (true,
          { st with
            samples_data := (acc ++ p) ++
              List.replicate ((List.map List.length [p]).sum - p.length) 0,
            samples_got := st.samples_got + (p.length : Int),
            progress := st.progress ++
              [(st.samples_got + (p.length : Int), st.samples_total)] }) := by
        rw [hread, decide_eq_true hdone]
      rw [show ([p] : List (List Nat)).length = 0 + 1 from rfl,
        runLoop_succ_true 0 hread']
      have hdata2 : (acc ++ p) ++ List.replicate ((List.map List.length [p]).sum - p.length) 0
          = acc ++ ([p] : List (List Nat)).join := by
        rw [hs1]
        simp
      have hprog2 : st.progress ++ [(st.samples_got + (p.length : Int), st.samples_total)]
          = st.progress ++ (List.range (0 + 1)).map
              (fun j => ((acc.length : Int) + ((sumTo [p] (j + 1) : Nat) : Int), (T : Int))) := by
        rw [hgot, hst]
        simp [sumTo, List.range_succ]
      have hgot2 : st.samples_got + (p.length : Int) = (T : Int) := hdone.trans hst
      rw [hprog2, hdata2, hgot2]
    | cons q rest' =>
      have hq : q ≠ [] := (hok q (by simp)).1
      have hqpos : 0 < q.length := List.length_pos.mpr hq
      have hrest1 : q.length ≤ (List.map List.length (q :: rest')).sum := by
        simp
      have hnotdone : ¬(st.samples_got + (p.length : Int) = st.samples_total) := by
        rw [hst, hgot]
        rw [show (acc.length : Int) + (p.length : Int) = ((acc.length + p.length : Nat) : Int)
          by push_cast; ring]
        rw [Nat.cast_inj]
        omega
      have hread' : readPacket (resp k) st = some (false,
          { st with
            samples_data := (acc ++ p) ++
              List.replicate ((List.map List.length (p :: q :: rest')).sum - p.length) 0,
            samples_got := st.samples_got + (p.length : Int),
            progress := st.progress ++
              [(st.samples_got + (p.length : Int), st.samples_total)] }) := by
        rw [hread, decide_eq_false hnotdone]
      set st1 : RxState :=
        { st with
          samples_data := (acc ++ p) ++
            List.replicate ((List.map List.length (p :: q :: rest')).sum - p.length) 0,
          samples_got := st.samples_got + (p.length : Int),
          progress := st.progress ++
            [(st.samples_got + (p.length : Int), st.samples_total)] } with hst1
      rw [show ((p :: q :: rest') : List (List Nat)).length = (q :: rest').length + 1 from rfl,
        runLoop_succ_false _ hread']
      have harg2 : ∀ j, j < (q :: rest').length →
          resp (k + 1 + j) = mkResponse metaB T ((acc ++ p).length + sumTo (q :: rest') j)
            ((q :: rest').getD j []) := by
        intro j hj
        have h2 := hresp (j + 1) (by simp at hj ⊢; omega)
        rw [show k + (j + 1) = k + 1 + j by omega] at h2
        have h3 : acc.length + sumTo (p :: q :: rest') (j + 1) =
            (acc ++ p).length + sumTo (q :: rest') j := by
          rw [sumTo_cons_succ, List.length_append]
          omega
        have h4 : (p :: q :: rest').getD (j + 1) [] = (q :: rest').getD j [] := rfl
        rw [h3, h4] at h2
        exact h2
      have hT' : T = (acc ++ p).length + (List.map List.length (q :: rest')).sum := by
        rw [List.length_append]
        omega
      have h_st1tot : st1.samples_total = (T : Int) := hst
      have h_st1data : st1.samples_data =
          (acc ++ p) ++ List.replicate ((List.map List.length (q :: rest')).sum) 0 := by
        rw [hst1]
        have h6 : (List.map List.length (p :: q :: rest')).sum - p.length =
            (List.map List.length (q :: rest')).sum := by omega
        rw [h6]
      have h_st1got : st1.samples_got = (((acc ++ p).length : Nat) : Int) := by
        rw [hst1]
        show st.samples_got + (p.length : Int) = (((acc ++ p).length : Nat) : Int)
        rw [hgot, List.length_append]
        push_cast
        ring
      rw [runLoop_tiles (q :: rest') resp (k + 1) metaB (acc ++ p) T st1
        (by simp) hm harg2 (fun p' hp' => hok p' (List.mem_cons_of_mem p hp'))
        hT' hT9 h_st1tot h_st1data h_st1got]
      have hD : (acc ++ p) ++ (q :: rest').join = acc ++ (p :: q :: rest').join := by
        simp
      have hP : st1.progress ++ (List.range (q :: rest').length).map
            (fun j => (((acc ++ p).length : Int) + ((sumTo (q :: rest') (j + 1) : Nat) : Int),
              (T : Int)))
          = st.progress ++ (List.range ((q :: rest').length + 1)).map
              (fun j => ((acc.length : Int) + ((sumTo (p :: q :: rest') (j + 1) : Nat) : Int),
                (T : Int))) := by
        rw [hst1]
        show (st.progress ++ [(st.samples_got + (p.length : Int), st.samples_total)]) ++ _ = _
        rw [List.append_assoc, List.singleton_append, List.range_succ_eq_map, List.map_cons,
          List.map_map]
        congr 1
        congr 1
        · rw [hgot, hst]
          have h8 : sumTo (p :: q :: rest') (0 + 1) = p.length := by
            rw [sumTo_cons_succ, sumTo_zero]
            omega
          rw [h8]
        · refine List.map_congr_left (fun j hj => ?_)
          simp only [Function.comp, Nat.succ_eq_add_one]
          have h7 : sumTo (p :: q :: rest') (j + 1 + 1) = p.length + sumTo (q :: rest') (j + 1) :=
            sumTo_cons_succ p (q :: rest') (j + 1)
          rw [h7]
          simp only [Prod.mk.injEq, and_true]
          rw [List.length_append]
          push_cast
          ring
      rw [hD, hP]

lemma sumTo_length (ps : List (List Nat)) : sumTo ps ps.length = (ps.map List.length).sum := by
  simp [sumTo]

/-- C3: for every well-formed in-order tiling transfer (non-overlapping payloads
    covering the whole buffer, each packet written at the cumulative offset of
    its predecessors), the packet loop of lines 106-107 terminates exactly at
    the last packet, the reassembled buffer is the concatenation of the
    payloads in offset order, and the progress callback trace is the sequence
    of cumulative received counts paired with the declared total. -/
theorem C3_reassembly (ps : List (List Nat)) (metaB : List Nat)
    (hne : ps ≠ []) (hm : metaB.length = 99)
    (hok : ∀ p ∈ ps, p ≠ [] ∧ (∀ b ∈ p, b < 256))
    (hT9 : (ps.map List.length).sum < 10 ^ 9) :
    runLoop (tileStream metaB ps) initState 0 ps.length =
      some (some ⟨(((ps.map List.length).sum : Nat) : Int), ps.join,
        (((ps.map List.length).sum : Nat) : Int), metaB,
        (List.range ps.length).map
          (fun j => (((sumTo ps (j + 1) : Nat) : Int),
            (((ps.map List.length).sum : Nat) : Int)))⟩) := by
  obtain ⟨p, rest, rfl⟩ : ∃ p rest, ps = p :: rest := by
    cases ps with
    | nil => exact absurd rfl hne
    | cons p rest => exact ⟨p, rest, rfl⟩
  have hp : p ≠ [] := (hok p (List.mem_cons_self p rest)).1
  have hpb : ∀ b ∈ p, b < 256 := (hok p (List.mem_cons_self p rest)).2
  have hsum : (List.map List.length (p :: rest)).sum =
      p.length + (List.map List.length rest).sum := by simp
  have hp9 : p.length < 10 ^ 9 := by omega
  have hts : ∀ k, tileStream metaB (p :: rest) k =
      mkResponse metaB ((List.map List.length (p :: rest)).sum) (sumTo (p :: rest) k)
        ((p :: rest).getD k []) := by
    intro k
    rw [tileStream, sumTo_length]
  have h0 : tileStream metaB (p :: rest) 0 =
      mkResponse metaB ((List.map List.length (p :: rest)).sum) (([] : List Nat).length) p := by
    rw [hts 0, sumTo_zero]
    rfl
  have hread : readPacket (tileStream metaB (p :: rest) 0) initState =
      some (decide ((0 : Int) + (p.length : Int) =
            (((List.map List.length (p :: rest)).sum : Nat) : Int)),
            ⟨(((List.map List.length (p :: rest)).sum : Nat) : Int),
             (([] : List Nat) ++ p) ++
               List.replicate ((List.map List.length (p :: rest)).sum - p.length) 0,
             (0 : Int) + (p.length : Int), metaB,
             ([] : List (Int × Int)) ++
               [((0 : Int) + (p.length : Int),
                 (((List.map List.length (p :: rest)).sum : Nat) : Int))]⟩) := by
    rw [h0, readPacket_mk_step,
      readPacketBody_mk_first hm ((List.map List.length (p :: rest)).sum)
        (([] : List Nat).length) initState hp hp9 (by omega) (by simp) rfl]
    exact finishPacket_mk hm p [] ((List.map List.length (p :: rest)).sum)
      ((List.map List.length (p :: rest)).sum)
      ⟨(((List.map List.length (p :: rest)).sum : Nat) : Int),
        List.replicate ((List.map List.length (p :: rest)).sum) 0, 0, metaB, []⟩
      (by simp) (by omega) hpb
  cases rest with
  | nil =>
    have hs1 : (List.map List.length [p]).sum = p.length := by simp
    have hdone : (0 : Int) + (p.length : Int) =
        (((List.map List.length [p]).sum : Nat) : Int) := by
      rw [hs1]
      ring
    have hread' : readPacket (tileStream metaB [p] 0) initState =
        some (true,
          ⟨(((List.map List.length [p]).sum : Nat) : Int),
           (([] : List Nat) ++ p) ++
             List.replicate ((List.map List.length [p]).sum - p.length) 0,
           (0 : Int) + (p.length : Int), metaB,
           ([] : List (Int × Int)) ++
             [((0 : Int) + (p.length : Int),
               (((List.map List.length [p]).sum : Nat) : Int))]⟩) := by
      rw [hread, decide_eq_true hdone]
    rw [show ([p] : List (List Nat)).length = 0 + 1 from rfl, runLoop_succ_true 0 hread']
    simp only [Option.some.injEq, RxState.mk.injEq, true_and, and_true]
    refine ⟨?_, ?_, ?_⟩
    · rw [hs1]
      simp
    · rw [hs1]
      ring
    · rw [hs1]
      simp [sumTo, List.range_succ]
  | cons q rest' =>
    have hq : q ≠ [] := (hok q (by simp)).1
    have hqpos : 0 < q.length := List.length_pos.mpr hq
    have hrest1 : q.length ≤ (List.map List.length (q :: rest')).sum := by simp
    have hnotdone : ¬((0 : Int) + (p.length : Int) =
        (((List.map List.length (p :: q :: rest')).sum : Nat) : Int)) := by
      rw [show (0 : Int) + (p.length : Int) = ((p.length : Nat) : Int) by ring]
      rw [Nat.cast_inj]
      omega
    have hread' : readPacket (tileStream metaB (p :: q :: rest') 0) initState =
        some (false,
          ⟨(((List.map List.length (p :: q :: rest')).sum : Nat) : Int),
           (([] : List Nat) ++ p) ++
             List.replicate ((List.map List.length (p :: q :: rest')).sum - p.length) 0,
           (0 : Int) + (p.length : Int), metaB,
           ([] : List (Int × Int)) ++
             [((0 : Int) + (p.length : Int),
               (((List.map List.length (p :: q :: rest')).sum : Nat) : Int))]⟩) := by
      rw [hread, decide_eq_false hnotdone]
    rw [show ((p :: q :: rest') : List (List Nat)).length = (q :: rest').length + 1 from rfl,
      runLoop_succ_false _ hread']
    set T := (List.map List.length (p :: q :: rest')).sum with hTdef
    set st1 : RxState :=
      ⟨((T : Nat) : Int),
       (([] : List Nat) ++ p) ++ List.replicate (T - p.length) 0,
       (0 : Int) + (p.length : Int), metaB,
       ([] : List (Int × Int)) ++ [((0 : Int) + (p.length : Int), ((T : Nat) : Int))]⟩ with hst1
    have harg2 : ∀ j, j < (q :: rest').length →
        tileStream metaB (p :: q :: rest') (1 + j) =
          mkResponse metaB T ((p : List Nat).length + sumTo (q :: rest') j)
            ((q :: rest').getD j []) := by
      intro j hj
      rw [hts (1 + j), show (1 : Nat) + j = j + 1 by omega, sumTo_cons_succ]
      rfl
    have hT' : T = (p : List Nat).length + (List.map List.length (q :: rest')).sum := hsum
    have h_st1tot : st1.samples_total = ((T : Nat) : Int) := rfl
    have h_st1data : st1.samples_data =
        p ++ List.replicate ((List.map List.length (q :: rest')).sum) 0 := by
      rw [hst1]
      show (([] : List Nat) ++ p) ++ List.replicate (T - p.length) 0 = _
      have h6 : T - p.length = (List.map List.length (q :: rest')).sum := by
        omega
      rw [h6]
      simp
    have h_st1got : st1.samples_got = (((p : List Nat).length : Nat) : Int) := by
      rw [hst1]
      show (0 : Int) + (p.length : Int) = _
      ring
    have harg2' : ∀ j, j < (q :: rest').length →
        tileStream metaB (p :: q :: rest') (1 + j) =
          mkResponse metaB T ((p : List Nat).length + sumTo (q :: rest') j)
            ((q :: rest').getD j []) := harg2
    rw [runLoop_tiles (q :: rest') (tileStream metaB (p :: q :: rest')) 1 metaB p T st1
      (by simp) hm harg2' (fun p' hp' => hok p' (List.mem_cons_of_mem p hp'))
      hT' (by omega) h_st1tot h_st1data h_st1got]
    simp only [Option.some.injEq, RxState.mk.injEq, true_and, and_true]
    refine ⟨?_, ?_⟩
    · simp
    · show (([] : List (Int × Int)) ++ [((0 : Int) + (p.length : Int), ((T : Nat) : Int))]) ++ _ = _
      rw [List.nil_append, List.singleton_append, List.range_succ_eq_map, List.map_cons,
        List.map_map]
      simp only [List.cons.injEq]
      refine ⟨?_, ?_⟩
      · have h8 : sumTo (p :: q :: rest') (0 + 1) = p.length := by
          rw [sumTo_cons_succ, sumTo_zero]
          omega
        rw [h8]
        norm_num
      · refine List.map_congr_left (fun j hj => ?_)
        simp only [Function.comp, Nat.succ_eq_add_one]
        have h7 : sumTo (p :: q :: rest') (j + 1 + 1) = p.length + sumTo (q :: rest') (j + 1) :=
          sumTo_cons_succ p (q :: rest') (j + 1)
        rw [h7]
        simp only [Prod.mk.injEq, and_true]
        push_cast
        ring

theorem C3_reassembly_witness :
    ([List.replicate 2000 7, List.replicate 2000 8, List.replicate 2000 9] : List (List Nat)) ≠ []
      ∧ (List.replicate 99 48 : List Nat).length = 99
      ∧ runLoop (tileStream (List.replicate 99 48)
          [List.replicate 2000 7, List.replicate 2000 8, List.replicate 2000 9]) initState 0
            ([List.replicate 2000 7, List.replicate 2000 8,
              List.replicate 2000 9] : List (List Nat)).length =
        some (some ⟨6000,
          List.replicate 2000 7 ++ (List.replicate 2000 8 ++ (List.replicate 2000 9 ++ [])),
          6000, List.replicate 99 48,
          [(2000, 6000), (4000, 6000), (6000, 6000)]⟩) := by
  have h := C3_reassembly
    [List.replicate 2000 7, List.replicate 2000 8, List.replicate 2000 9]
    (List.replicate 99 48) (by simp) (by simp)
    (by
      intro P hP
      simp only [List.mem_cons, List.not_mem_nil, or_false] at hP
      rcases hP with rfl | rfl | rfl <;>
        exact ⟨by simp, fun b hb => by rw [List.eq_of_mem_replicate hb]; norm_num⟩)
    (by norm_num)
  refine ⟨by simp, by simp, ?_⟩
  have e1 : (List.map List.length
      [List.replicate 2000 (7 : Nat), List.replicate 2000 8, List.replicate 2000 9]).sum
      = 6000 := by
    rw [List.map_cons, List.map_cons, List.map_cons, List.map_nil,
      List.length_replicate, List.length_replicate, List.length_replicate]
    norm_num
  rw [e1] at h
  have e2 : ([List.replicate 2000 (7 : Nat), List.replicate 2000 8,
      List.replicate 2000 9] : List (List Nat)).join =
      List.replicate 2000 7 ++ (List.replicate 2000 8 ++ (List.replicate 2000 9 ++ [])) := rfl
  rw [e2] at h
  have e3 : List.range ([List.replicate 2000 (7 : Nat), List.replicate 2000 8,
      List.replicate 2000 9] : List (List Nat)).length = [0, 1, 2] := rfl
  rw [e3, List.map_cons, List.map_cons, List.map_cons, List.map_nil] at h
  have s1 : sumTo [List.replicate 2000 (7 : Nat), List.replicate 2000 8,
      List.replicate 2000 9] (0 + 1) = 2000 := by
    rw [sumTo_cons_succ, sumTo_zero, List.length_replicate]
  have s2 : sumTo [List.replicate 2000 (7 : Nat), List.replicate 2000 8,
      List.replicate 2000 9] (1 + 1) = 4000 := by
    rw [sumTo_cons_succ, show (1 : Nat) = 0 + 1 from rfl, sumTo_cons_succ, sumTo_zero,
      List.length_replicate, List.length_replicate]
  have s3 : sumTo [List.replicate 2000 (7 : Nat), List.replicate 2000 8,
      List.replicate 2000 9] (2 + 1) = 6000 := by
    rw [sumTo_cons_succ, show (2 : Nat) = 1 + 1 from rfl, sumTo_cons_succ,
      show (1 : Nat) = 0 + 1 from rfl, sumTo_cons_succ, sumTo_zero,
      List.length_replicate, List.length_replicate, List.length_replicate]
  rw [s1, s2, s3] at h
  have c1 : (((6000 : Nat) : Int)) = (6000 : Int) := by norm_num
  have c2 : (((2000 : Nat) : Int)) = (2000 : Int) := by norm_num
  have c3 : (((4000 : Nat) : Int)) = (4000 : Int) := by norm_num
  rw [c1, c2, c3] at h
  exact h


lemma readPacket_zeroResp (st : RxState) : readPacket zeroResp st = some (false, st) := by
  show readPacket (35 :: 57 :: List.replicate 9 48) st = some (false, st)
  simp only [readPacket]
  norm_num
  unfold readPacketBody
  have h : parsePyInt ((((35 : Nat) :: 57 :: List.replicate 9 48).drop 2).take 9) = some 0 := by
    decide
  rw [h, Option.some_bind, if_pos rfl]

/-- C2: the code has no bounded retry and no Timeout outcome.  With every
    response declaring `chunk_length = 0`, the `while not readPacket(): pass`
    loop of lines 106-107 re-issues the query forever: after any number of
    reads, from any loop state, it is still running — it neither terminates
    with an error nor raises an exception. -/
theorem C2_zero_chunk_loops_forever :
    ∀ (fuel k : Nat) (st : RxState), runLoop (fun _ => zeroResp) st k fuel = some none := by
  intro fuel
  induction fuel with
  | zero => intro k st; rfl
  | succ n ih =>
    intro k st
    rw [runLoop_succ_false n (readPacket_zeroResp st)]
    exact ih (k + 1) st

lemma readPacket_not35 (a : Nat) (r : List Nat) (st : RxState) (h : a ≠ 35) :
    readPacket (a :: r) st = some (false, st) := by
  simp only [readPacket]
  rw [if_pos h]

lemma readPacket_not57 (b : Nat) (r : List Nat) (st : RxState) (h : b ≠ 57) :
    readPacket (35 :: b :: r) st = some (false, st) := by
  simp only [readPacket]
  norm_num
  exact fun hb => absurd hb h

/-- C8 (amended): a response whose first two bytes are not the `'#','9'`
    marker makes that `readPacket` attempt return `False` with the reassembly
    state untouched — no `MalformedHeader` error exists and nothing is
    consumed — and the enclosing loop then silently re-issues the query; with
    every response malformed the loop never terminates. -/
theorem C8_malformed_header_silent_retry :
    (∀ (a : Nat) (r : List Nat) (st : RxState), a ≠ 35 →
        readPacket (a :: r) st = some (false, st))
    ∧ (∀ (b : Nat) (r : List Nat) (st : RxState), b ≠ 57 →
        readPacket (35 :: b :: r) st = some (false, st))
    ∧ (∀ (fuel k : Nat) (st : RxState), runLoop (fun _ => badResp) st k fuel = some none) := by
  refine ⟨readPacket_not35, readPacket_not57, ?_⟩
  intro fuel
  induction fuel with
  | zero => intro k st; rfl
  | succ n ih =>
    intro k st
    rw [runLoop_succ_false n (readPacket_not35 65 [66] st (by norm_num))]
    exact ih (k + 1) st

theorem C8_malformed_header_silent_retry_witness :
    readPacket (65 :: [66]) initState = some (false, initState)
    ∧ readPacket (35 :: 66 :: []) initState = some (false, initState)
    ∧ runLoop (fun _ => badResp) initState 0 7 = some none :=
  ⟨C8_malformed_header_silent_retry.1 65 [66] initState (by norm_num),
   C8_malformed_header_silent_retry.2.1 66 [] initState (by norm_num),
   C8_malformed_header_silent_retry.2.2 7 0 initState⟩

/-- C8 (counterexample to the claim as stated): with every response lacking
    the marker, after 50 read attempts the loop is still running — the read
    attempt has not terminated and has been silently retried 50 times, and no
    failure outcome has been produced. -/
theorem C8_counterexample :
    runLoop (fun _ => badResp) initState 0 50 = some none := by
  decide

/-- C1 (amended): a later packet whose declared `total_samples` differs from
    the one fixed by the first packet is dropped by lines 90-92: `readPacket`
    returns `False` with the reassembly state completely unchanged (nothing is
    copied into the buffer and no progress is reported), and the loop of lines
    106-107 then silently issues the next query instead of terminating with a
    `SampleCountMismatch` failure. -/
theorem C1_mismatch_silent_retry (inp : List Nat) (st : RxState) (L T P : Int)
    (h0 : inp.get? 0 = some 35) (h1 : inp.get? 1 = some 57)
    (hL : parsePyInt ((inp.drop 2).take 9) = some L) (hL0 : L ≠ 0)
    (hT : parsePyInt ((inp.drop 11).take 9) = some T)
    (hP : parsePyInt ((inp.drop 20).take 9) = some P)
    (hne : st.samples_total ≠ -1) (hmm2 : st.samples_total ≠ T) :
    readPacket inp st = some (false, st)
    ∧ ∀ (resp : Nat → List Nat) (k fuel : Nat), resp k = inp →
        runLoop resp st k (fuel + 1) = runLoop resp st (k + 1) fuel := by
  have hbody : readPacket inp st = some (false, st) := by
    cases inp with
    | nil => exact Option.noConfusion h0
    | cons b0 t =>
      obtain rfl : b0 = 35 := Option.some.inj h0
      cases t with
      | nil => exact Option.noConfusion h1
      | cons b1 t' =>
        obtain rfl : b1 = 57 := Option.some.inj h1
        simp only [readPacket]
        norm_num
        unfold readPacketBody
        rw [hL, Option.some_bind, if_neg hL0, hT, Option.some_bind, hP, Option.some_bind,
          if_neg hne, if_pos hmm2]
  exact ⟨hbody, fun resp k fuel hr => by rw [runLoop_succ_false fuel (hr ▸ hbody)]⟩

/-- C1 (counterexample to the claim as stated): on a transfer whose second
    response declares `total_samples = 7` after the first declared `6`, the
    read does not terminate with any failure — the mismatching packet is
    dropped, the loop silently retries, and the transfer then completes
    normally (the progress trace shows only two packets were accepted). -/
theorem C1_counterexample :
    runLoop mismatchStream initState 0 3 =
      some (some ⟨6, [1, 2, 3, 4, 5, 6], 6, metaGood, [(3, 6), (6, 6)]⟩) := by
  decide

theorem C1_mismatch_silent_retry_witness :
    readPacket (mkResponse metaGood 7 3 [9, 9, 9])
        ⟨6, [1, 2, 3, 0, 0, 0], 3, metaGood, [(3, 6)]⟩
      = some (false, ⟨6, [1, 2, 3, 0, 0, 0], 3, metaGood, [(3, 6)]⟩)
    ∧ runLoop mismatchStream ⟨6, [1, 2, 3, 0, 0, 0], 3, metaGood, [(3, 6)]⟩ 1 2
      = runLoop mismatchStream ⟨6, [1, 2, 3, 0, 0, 0], 3, metaGood, [(3, 6)]⟩ 2 1 := by
  have h := C1_mismatch_silent_retry (mkResponse metaGood 7 3 [9, 9, 9])
    ⟨6, [1, 2, 3, 0, 0, 0], 3, metaGood, [(3, 6)]⟩ 3 7 3
    (by decide) (by decide) (by decide) (by decide) (by decide) (by decide)
    (by decide) (by decide)
  exact ⟨h.1, h.2 mismatchStream 1 1 rfl⟩


lemma extractBlocks_zero_step (data : List Nat) (i : Nat) :
    extractBlocks data 0 i = none := by
  rw [extractBlocks]
  rw [if_neg (by omega)]

lemma extractBlocks_stop (data : List Nat) (step i : Nat) (h1 : 0 < step)
    (h2 : data.length ≤ i) :
    extractBlocks data step i = some [] := by
  rw [extractBlocks]
  rw [if_pos h1, if_neg (by omega)]

lemma extractBlocks_step (data : List Nat) (step i : Nat) (h1 : 0 < step)
    (h2 : i < data.length) (h3 : ((data.drop i).take block_len).length = block_len) :
    extractBlocks data step i = (extractBlocks data step (i + step)).map
      (fun rest => ((data.drop i).take block_len).map toSigned ++ rest) := by
  rw [extractBlocks]
  rw [if_pos h1, if_pos h2]
  simp only [h3, eq_self_iff_true, if_true]

lemma extractBlocks_spec : ∀ (R : Nat) (data : List Nat) (step i : Nat), 0 < step →
    (∀ r, r < R → i + r * step + block_len ≤ data.length) →
    data.length ≤ i + R * step →
    extractBlocks data step i =
      some (((List.range R).map
        (fun r => ((data.drop (i + r * step)).take block_len).map toSigned)).join) := by
  intro R
  induction R with
  | zero =>
    intro data step i h1 _ h3
    simp only [Nat.zero_mul, Nat.add_zero] at h3
    rw [extractBlocks_stop data step i h1 h3]
    simp
  | succ R ih =>
    intro data step i h1 h2 h3
    have hfull : i + block_len ≤ data.length := by
      have h4 := h2 0 (by omega)
      simp only [Nat.zero_mul, Nat.add_zero] at h4
      omega
    have hbl : 0 < block_len := by norm_num [block_len]
    have hi : i < data.length := by omega
    have hlen : ((data.drop i).take block_len).length = block_len := by
      rw [List.length_take, List.length_drop]
      omega
    rw [extractBlocks_step data step i h1 hi hlen]
    rw [ih data step (i + step) h1
      (by
        intro r hr
        have h5 := h2 (r + 1) (by omega)
        have h6 : (r + 1) * step = r * step + step := Nat.succ_mul r step
        omega)
      (by
        have h6 : (R + 1) * step = R * step + step := Nat.succ_mul R step
        omega)]
    rw [Option.map_some']
    congr 1
    rw [List.range_succ_eq_map, List.map_cons, List.map_map,
      show ∀ (a : List Int) (l : List (List Int)), (a :: l).join = a ++ l.join
        from fun a l => rfl]
    congr 1
    · simp
    · congr 1
      refine List.map_congr_left (fun r hr => ?_)
      simp only [Function.comp, Nat.succ_eq_add_one]
      have h7 : i + (r + 1) * step = i + step + r * step := by
        have h8 : (r + 1) * step = r * step + step := by
          rw [Nat.add_mul, Nat.one_mul]
        omega
      rw [h7]

lemma toSigned_range (b : Nat) (hb : b < 256) : -128 ≤ toSigned b ∧ toSigned b ≤ 127 := by
  unfold toSigned
  split
  · constructor <;> omega
  · constructor <;> omega

/-- C4: channel extraction (lines 133-137) on a fully interleaved buffer of
    `R` rounds for `n` enabled channels returns, for channel `k` (1-based,
    `k ≤ n`), exactly the `block_len`-byte blocks starting at byte offset
    `(k-1)·block_len` and recurring every `block_len·n` bytes, each block
    reinterpreted as `block_len` signed 8-bit samples and concatenated in
    order; every extracted sample lies in `[-128, 127]`, and the fixed block
    size `block_len` is 2000. -/
theorem C4_channel_extraction (data : List Nat) (n k R : Nat)
    (h1 : 1 ≤ k) (h2 : k ≤ n) (hlen : data.length = block_len * n * R)
    (hbytes : ∀ b ∈ data, b < 256) :
    block_len = 2000
    ∧ extractChannel data k n =
        some (((List.range R).map (fun r =>
          ((data.drop ((k - 1) * block_len + r * (block_len * n))).take block_len).map
            toSigned)).join)
    ∧ ∀ v ∈ (((List.range R).map (fun r =>
          ((data.drop ((k - 1) * block_len + r * (block_len * n))).take block_len).map
            toSigned)).join), -128 ≤ v ∧ v ≤ 127 := by
  have hbl : 0 < block_len := by norm_num [block_len]
  have hn : 0 < n := by omega
  have hstep : 0 < block_len * n := by positivity
  refine ⟨rfl, ?_, ?_⟩
  · unfold extractChannel
    rw [extractBlocks_spec R data (block_len * n) ((k - 1) * block_len) hstep
      (by
        intro r hr
        have e1 : (k - 1) * block_len + block_len = ((k - 1) + 1) * block_len :=
          (Nat.succ_mul (k - 1) block_len).symm
        have e2 : ((k - 1) + 1) * block_len ≤ n * block_len :=
          Nat.mul_le_mul_right block_len (by omega)
        have e3 : r * (block_len * n) + block_len * n ≤ R * (block_len * n) := by
          have e4 : (r + 1) * (block_len * n) = r * (block_len * n) + block_len * n :=
            Nat.succ_mul r (block_len * n)
          calc r * (block_len * n) + block_len * n = (r + 1) * (block_len * n) := e4.symm
            _ ≤ R * (block_len * n) := Nat.mul_le_mul_right (block_len * n) (by omega)
        have e5 : block_len * n * R = R * (block_len * n) := by ring
        have e6 : n * block_len = block_len * n := by ring
        omega)
      (by
        have e5 : block_len * n * R = R * (block_len * n) := by ring
        omega)]
  · intro v hv
    simp only [List.mem_join, List.mem_map] at hv
    obtain ⟨l, ⟨⟨r, _, rfl⟩, hvl⟩⟩ := hv
    simp only [List.mem_map] at hvl
    obtain ⟨b, hb, rfl⟩ := hvl
    exact toSigned_range b
      (hbytes b (List.mem_of_mem_drop (List.mem_of_mem_take hb)))

theorem C4_channel_extraction_witness :
    (List.replicate 8000 (5 : Nat)).length = block_len * 2 * 2
    ∧ extractChannel (List.replicate 8000 5) 1 2 =
        some (((List.range 2).map (fun r =>
          (((List.replicate 8000 (5 : Nat)).drop ((1 - 1) * block_len + r * (block_len * 2))).take
            block_len).map toSigned)).join) := by
  have h := C4_channel_extraction (List.replicate 8000 5) 2 1 2 (by norm_num) (by norm_num)
    (by rw [List.length_replicate]; norm_num [block_len])
    (fun b hb => by rw [List.eq_of_mem_replicate hb]; norm_num)
  exact ⟨by rw [List.length_replicate]; norm_num [block_len], h.2.1⟩


lemma parsePyFloat_1e8 :
    parsePyFloat [49, 46, 48, 48, 48, 69, 43, 48, 56] = some ((10 : ℚ) ^ 8) := by
  norm_num [parsePyFloat, parseUFloat, parseExp, parseSign, parseDigits, digitsVal, stripWs,
    splitAtFirst, isWsB, isDigit, List.cons_ne_nil]

lemma parsePyFloat_allX : parsePyFloat (List.replicate 9 88) = none := by
  decide

lemma parsePyInt_digit {b : Nat} (h : 48 ≤ b ∧ b ≤ 57) :
    parsePyInt [b] = some (((b - 48 : Nat) : Nat) : Int) := by
  have h0 := parsePyInt_digits (l := [b]) (by simp)
    (by intro x hx; simp only [List.mem_singleton] at hx; subst hx; simp [isDigit]; omega)
  rw [h0]
  simp [digitsVal]

lemma getD_append_right_at {l1 l2 : List Nat} (d : Nat) :
    ∀ (j : Nat), (l1 ++ l2).getD (l1.length + j) d = l2.getD j d := by
  induction l1 with
  | nil => intro j; simp
  | cons a t ih =>
    intro j
    have e : (a :: t).length + j = (t.length + j) + 1 := by simp; omega
    rw [e]
    simp only [List.cons_append, List.getD_cons_succ]
    exact ih j

lemma drop_append_right_len {l1 l2 : List Nat} {n : Nat} (h : l1.length = n) :
    (l1 ++ l2).drop n = l2 := List.drop_left' h

/-- Decoding a 99-byte metadata region given in decomposed form: 46 leading
    bytes, the four flag bytes, the 9-byte sampling-rate field, 40 trailing
    bytes.  Each flag byte must be an ASCII digit; the sampling-rate field is
    the given 9 bytes; the trigger-time field is bytes 15..23 of `post`. -/
lemma decodeMeta_decomposed (pre post srb : List Nat) (f1 f2 f3 f4 : Nat)
    (hpre : pre.length = 46) (hpost : post.length = 40) (hsrb : srb.length = 9)
    (h1 : 48 ≤ f1 ∧ f1 ≤ 57) (h2 : 48 ≤ f2 ∧ f2 ≤ 57)
    (h3 : 48 ≤ f3 ∧ f3 ≤ 57) (h4 : 48 ≤ f4 ∧ f4 ≤ 57)
    {q : ℚ} (hsr : parsePyFloat srb = some q) :
    decodeMeta (pre ++ ([f1, f2, f3, f4] ++ (srb ++ post))) =
      some ⟨((f1 - 48 : Nat) : Int) + ((f2 - 48 : Nat) : Int) + ((f3 - 48 : Nat) : Int)
              + ((f4 - 48 : Nat) : Int), q,
            (parsePyFloat ((post.drop 15).take 9)).getD 0⟩ := by
  set meta := pre ++ ([f1, f2, f3, f4] ++ (srb ++ post)) with hmeta
  have hlen : meta.length = 99 := by
    simp [hmeta, hpre, hpost, hsrb]
  have hd46 : meta.getD 46 0 = f1 := by
    rw [hmeta, show (46 : Nat) = pre.length + 0 by omega, getD_append_right_at]
    rfl
  have hd47 : meta.getD 47 0 = f2 := by
    rw [hmeta, show (47 : Nat) = pre.length + 1 by omega, getD_append_right_at]
    rfl
  have hd48 : meta.getD 48 0 = f3 := by
    rw [hmeta, show (48 : Nat) = pre.length + 2 by omega, getD_append_right_at]
    rfl
  have hd49 : meta.getD 49 0 = f4 := by
    rw [hmeta, show (49 : Nat) = pre.length + 3 by omega, getD_append_right_at]
    rfl
  have hdrop46 : meta.drop 46 = [f1, f2, f3, f4] ++ (srb ++ post) := by
    rw [hmeta, drop_append_right_len hpre]
  have hdrop50 : meta.drop 50 = srb ++ post := by
    have e : (meta.drop 46).drop 4 = meta.drop 50 := by rw [List.drop_drop]
    rw [← e, hdrop46]
    rfl
  have hsr9 : (meta.drop 50).take 9 = srb := by
    rw [hdrop50, List.take_left' hsrb]
  have hdrop74 : meta.drop 74 = post.drop 15 := by
    have e1 : (meta.drop 50).drop 9 = meta.drop 59 := by rw [List.drop_drop]
    have e2 : (meta.drop 59).drop 15 = meta.drop 74 := by rw [List.drop_drop]
    rw [← e2, ← e1, hdrop50, drop_append_right_len hsrb]
  have htt9 : (meta.drop 74).take 9 = (post.drop 15).take 9 := by rw [hdrop74]
  unfold decodeMeta
  rw [if_pos hlen, hd46, hd47, hd48, hd49,
    parsePyInt_digit h1, parsePyInt_digit h2, parsePyInt_digit h3, parsePyInt_digit h4,
    hsr9, hsr, htt9]

/-- C9: a 99-byte metadata region whose sampling-rate field holds the ASCII
    text `"1.000E+08"` and whose four channel-enabled flag bytes are ASCII
    `'0'`/`'1'` with exactly two of them set decodes (lines 110-123) to
    `sampling_rate = 1e8` and `channel_count = 2`, the count of set flags. -/
theorem C9_metadata_decode (pre post : List Nat) (f1 f2 f3 f4 : Nat)
    (hpre : pre.length = 46) (hpost : post.length = 40)
    (hf : ∀ f ∈ [f1, f2, f3, f4], f = 48 ∨ f = 49)
    (hcount : [f1, f2, f3, f4].count 49 = 2) :
    (decodeMeta (pre ++ ([f1, f2, f3, f4] ++
        ([49, 46, 48, 48, 48, 69, 43, 48, 56] ++ post)))).map MetaRec.channel_count = some 2
    ∧ (decodeMeta (pre ++ ([f1, f2, f3, f4] ++
        ([49, 46, 48, 48, 48, 69, 43, 48, 56] ++ post)))).map MetaRec.sr
        = some ((10 : ℚ) ^ 8) := by
  have g1 := hf f1 (by simp)
  have g2 := hf f2 (by simp)
  have g3 := hf f3 (by simp)
  have g4 := hf f4 (by simp)
  have hdec := decodeMeta_decomposed pre post [49, 46, 48, 48, 48, 69, 43, 48, 56] f1 f2 f3 f4
    hpre hpost (by rfl) (by omega) (by omega) (by omega) (by omega) parsePyFloat_1e8
  rw [hdec]
  have hsum : ((f1 - 48 : Nat) : Int) + ((f2 - 48 : Nat) : Int) + ((f3 - 48 : Nat) : Int)
      + ((f4 - 48 : Nat) : Int) = 2 := by
    rcases g1 with rfl | rfl <;> rcases g2 with rfl | rfl <;>
      rcases g3 with rfl | rfl <;> rcases g4 with rfl | rfl <;>
      simp_all [List.count_cons]
  rw [Option.map_some', Option.map_some']
  exact ⟨by rw [← hsum], rfl⟩

theorem C9_metadata_decode_witness :
    (List.replicate 46 (48 : Nat)).length = 46
    ∧ (List.replicate 40 (48 : Nat)).length = 40
    ∧ (decodeMeta (List.replicate 46 48 ++ ([49, 49, 48, 48] ++
        ([49, 46, 48, 48, 48, 69, 43, 48, 56] ++
          List.replicate 40 48)))).map MetaRec.channel_count = some 2
    ∧ (decodeMeta (List.replicate 46 48 ++ ([49, 49, 48, 48] ++
        ([49, 46, 48, 48, 48, 69, 43, 48, 56] ++
          List.replicate 40 48)))).map MetaRec.sr = some ((10 : ℚ) ^ 8) := by
  have h := C9_metadata_decode (List.replicate 46 48) (List.replicate 40 48) 49 49 48 48
    (by simp) (by simp) (by decide) (by decide)
  exact ⟨by simp, by simp, h.1, h.2⟩

/-- C7 (amended): an unparseable sampling-rate field aborts the decode — the
    exception of lines 120-123 escapes and no value is produced — but an
    unparseable trigger-time field does not: the `except:` clause of line 130
    silently substitutes the default `0.0` and decoding succeeds. -/
theorem C7_metadata_numeric_fields :
    (∀ meta : List Nat, meta.length = 99 →
      parsePyFloat ((meta.drop 50).take 9) = none → decodeMeta meta = none)
    ∧ (∀ (meta : List Nat) (n1 n2 n3 n4 : Int) (q : ℚ), meta.length = 99 →
        parsePyInt [meta.getD 46 0] = some n1 → parsePyInt [meta.getD 47 0] = some n2 →
        parsePyInt [meta.getD 48 0] = some n3 → parsePyInt [meta.getD 49 0] = some n4 →
        parsePyFloat ((meta.drop 50).take 9) = some q →
        parsePyFloat ((meta.drop 74).take 9) = none →
        decodeMeta meta = some ⟨n1 + n2 + n3 + n4, q, 0⟩) := by
  constructor
  · intro meta hlen hsr
    unfold decodeMeta
    rw [if_pos hlen]
    cases h1 : parsePyInt [meta.getD 46 0] with
    | none => rfl
    | some n1 =>
      cases h2 : parsePyInt [meta.getD 47 0] with
      | none => rfl
      | some n2 =>
        cases h3 : parsePyInt [meta.getD 48 0] with
        | none => rfl
        | some n3 =>
          cases h4 : parsePyInt [meta.getD 49 0] with
          | none => rfl
          | some n4 =>
            rw [hsr]
  · intro meta n1 n2 n3 n4 q hlen h1 h2 h3 h4 hsr htt
    unfold decodeMeta
    rw [if_pos hlen, h1, h2, h3, h4, hsr, htt]
    rfl

/-- C7 (counterexample to the claim as stated): a 99-byte metadata region
    whose trigger-time field is the unparseable ASCII text `"XXXXXXXXX"` does
    not make decoding fail — the decoder silently substitutes the default
    `0.0` for the trigger time and succeeds. -/
theorem C7_counterexample : decodeMeta metaTTbad = some ⟨1, (10 : ℚ) ^ 8, 0⟩ := by
  have e : metaTTbad = (List.replicate 46 48) ++ ([49, 48, 48, 48] ++
      ([49, 46, 48, 48, 48, 69, 43, 48, 56] ++
        (List.replicate 15 48 ++ List.replicate 9 88 ++ List.replicate 16 48))) := by
    simp [metaTTbad, List.append_assoc]
  rw [e, decodeMeta_decomposed _ _ _ _ _ _ _ (by simp) (by simp) (by rfl)
    (by omega) (by omega) (by omega) (by omega) parsePyFloat_1e8]
  have h9 : (((List.replicate 15 (48 : Nat) ++ List.replicate 9 88 ++
      List.replicate 16 48).drop 15).take 9) = List.replicate 9 88 := by decide
  rw [h9, parsePyFloat_allX]
  rfl

theorem C7_metadata_numeric_fields_witness :
    decodeMeta metaSRbad = none
    ∧ decodeMeta metaTTbad = some ⟨1 + 0 + 0 + 0, (10 : ℚ) ^ 8, 0⟩ :=
  ⟨C7_metadata_numeric_fields.1 metaSRbad (by decide) (by decide),
   C7_metadata_numeric_fields.2 metaTTbad 1 0 0 0 ((10 : ℚ) ^ 8) (by decide)
     (by decide) (by decide) (by decide) (by decide)
     (by
       rw [show ((metaTTbad.drop 50).take 9) = [49, 46, 48, 48, 48, 69, 43, 48, 56]
         from by decide]
       exact parsePyFloat_1e8)
     (by decide)⟩

lemma parsePyFloat_zeros : parsePyFloat (List.replicate 9 48) = some 0 := by
  norm_num [parsePyFloat, parseUFloat, parseExp, parseSign, parseDigits, digitsVal, stripWs,
    splitAtFirst, isWsB, isDigit, List.replicate, List.cons_ne_nil]

lemma decodeMeta_metaGood : decodeMeta metaGood = some ⟨1, (10 : ℚ) ^ 8, 0⟩ := by
  have e : metaGood = (List.replicate 46 48) ++ ([49, 48, 48, 48] ++
      ([49, 46, 48, 48, 48, 69, 43, 48, 56] ++ List.replicate 40 48)) := by
    simp [metaGood, List.append_assoc]
  rw [e, decodeMeta_decomposed _ _ _ _ _ _ _ (by simp) (by simp) (by rfl)
    (by omega) (by omega) (by omega) (by omega) parsePyFloat_1e8]
  have h9 : (((List.replicate 40 (48 : Nat)).drop 15).take 9) = List.replicate 9 48 := by
    decide
  rw [h9, parsePyFloat_zeros]
  rfl

lemma decodeMeta_metaSRbad : decodeMeta metaSRbad = none := by
  unfold decodeMeta
  rw [if_pos (by decide : metaSRbad.length = 99),
    show parsePyInt [metaSRbad.getD 46 0] = some 1 from by decide,
    show parsePyInt [metaSRbad.getD 47 0] = some 0 from by decide,
    show parsePyInt [metaSRbad.getD 48 0] = some 0 from by decide,
    show parsePyInt [metaSRbad.getD 49 0] = some 0 from by decide,
    show (metaSRbad.drop 50).take 9 = List.replicate 9 88 from by decide,
    parsePyFloat_allX]

lemma runLoop_succ_none {resp : Nat → List Nat} {st : RxState} {k : Nat} (fuel : Nat)
    (h : readPacket (resp k) st = none) :
    runLoop resp st k (fuel + 1) = none := by
  simp [runLoop, h]

lemma gw_streamA : get_waveform streamA 1 1 0 1 = .failed := by
  unfold get_waveform
  rw [runLoop_succ_none 0 (by decide : readPacket (streamA 0) initState = none)]

lemma gw_streamB : get_waveform streamB 1 1 0 1 = .failed := by
  unfold get_waveform
  rw [show runLoop streamB initState 0 1 = some (some ⟨2, [7, 8], 2, metaSRbad, [(2, 2)]⟩)
    from by decide]
  dsimp only
  rw [decodeMeta_metaSRbad]

lemma gw_streamEmpty : get_waveform streamEmpty 1 1 0 1 = .ok [] [] := by
  unfold get_waveform
  rw [show runLoop streamEmpty initState 0 1 = some (some ⟨0, [], 0, metaGood, [(0, 0)]⟩)
    from by decide]
  dsimp only
  rw [decodeMeta_metaGood]
  dsimp only
  rw [show extractChannel [] 1 (Int.toNat 1) = some [] from
    extractBlocks_stop [] (block_len * Int.toNat 1) 0 (by norm_num [block_len]) (by simp)]
  dsimp only
  rw [if_neg (by simp)]
  rfl

/-- C5: the calibrated voltage of a raw signed sample `v` at channel scale
    `s` and offset `o` is `v / grid_y * s - o` with the fixed constant
    `grid_y = 25` (lines 144-145); in particular raw 25 at scale 1, offset 0
    gives 1 V; raw -25 gives -1 V; raw 0 at scale 2, offset 1/2 gives -1/2 V. -/
theorem C5_voltage_calibration :
    grid_y = 25
    ∧ (∀ (samples : List Int) (scale offset : ℚ),
        voltsOf samples scale offset = samples.map (fun v : Int => (v : ℚ) / 25 * scale - offset))
    ∧ voltsOf [25] 1 0 = [1]
    ∧ voltsOf [-25] 1 0 = [-1]
    ∧ voltsOf [0] 2 (1 / 2) = [-(1 / 2)] := by
  refine ⟨rfl, fun samples scale offset => rfl, ?_, ?_, ?_⟩ <;>
    norm_num [voltsOf, grid_y]

lemma timesOf_getD (n i : Nat) (sr tt : ℚ) (h : i < n) :
    (timesOf n sr tt).getD i 0 = (i : ℚ) / sr - tt := by
  unfold timesOf
  have h1 : i < ((List.range n).map (fun j : Nat => (j : ℚ) / sr - tt)).length := by
    rw [List.length_map, List.length_range]
    exact h
  rw [List.getD_eq_getElem _ _ h1]
  rw [List.getElem_map, List.getElem_range]

/-- C6: for any input sample list the calibrated output consists of a time
    sequence and a voltage sequence, each of the same length as the input,
    with `time[i] = i / samplingRate - triggerTimeOffset` (line 148); in
    particular at sampling rate `10^6` and trigger-time offset `1/1000`,
    `time[0] = -1/1000` and `time[1000] = 0` exactly. -/
theorem C6_time_axis (samples : List Int) (sr tt scale offset : ℚ) (i : Nat)
    (hi : i < samples.length) :
    (timesOf samples.length sr tt).length = samples.length
    ∧ (voltsOf samples scale offset).length = samples.length
    ∧ (timesOf samples.length sr tt).getD i 0 = (i : ℚ) / sr - tt
    ∧ (timesOf 1001 (10 ^ 6) (1 / 1000)).getD 0 0 = -(1 / 1000)
    ∧ (timesOf 1001 (10 ^ 6) (1 / 1000)).getD 1000 0 = 0 := by
  refine ⟨by simp [timesOf], by simp [voltsOf], timesOf_getD _ _ _ _ hi, ?_, ?_⟩
  · rw [timesOf_getD 1001 0 _ _ (by norm_num)]
    norm_num
  · rw [timesOf_getD 1001 1000 _ _ (by norm_num)]
    norm_num

theorem C6_time_axis_witness :
    (timesOf ([5, -3] : List Int).length 2 1).length = ([5, -3] : List Int).length
    ∧ (voltsOf [5, -3] 1 0).length = ([5, -3] : List Int).length
    ∧ (timesOf ([5, -3] : List Int).length 2 1).getD 1 0 = ((1 : Nat) : ℚ) / 2 - 1
    ∧ (timesOf 1001 (10 ^ 6) (1 / 1000)).getD 0 0 = -(1 / 1000)
    ∧ (timesOf 1001 (10 ^ 6) (1 / 1000)).getD 1000 0 = 0 :=
  C6_time_axis [5, -3] 2 1 1 0 1 (by norm_num)

/-- C10 (amended): every failure inside `get_waveform` is reported to the
    caller as the `(None, None)` result of line 154, which is distinguishable
    from a legitimately empty sample set (an empty transfer returns a pair of
    empty sequences, not `None`); but the failure kinds are not
    distinguishable from one another — e.g. a header-parse failure and an
    invalid-metadata failure both collapse to the same `(None, None)`. -/
theorem C10_failure_reporting :
    (∀ (t v : List ℚ), returnsNone (.ok t v) = false)
    ∧ returnsNone .failed = true
    ∧ get_waveform streamA 1 1 0 1 = .failed
    ∧ get_waveform streamB 1 1 0 1 = .failed
    ∧ get_waveform streamEmpty 1 1 0 1 = .ok [] [] :=
  ⟨fun _ _ => rfl, rfl, gw_streamA, gw_streamB, gw_streamEmpty⟩

/-- C10 (counterexample to the claim as stated): two different failure kinds
    — an unparseable chunk-length header field (`streamA`) and an unparseable
    sampling-rate metadata field after a completed transfer (`streamB`) —
    produce identical results, so a caller cannot distinguish failure kinds
    from one another. -/
theorem C10_counterexample :
    get_waveform streamA 1 1 0 1 = get_waveform streamB 1 1 0 1
    ∧ get_waveform streamA 1 1 0 1 = .failed :=
  ⟨gw_streamA.trans gw_streamB.symm, gw_streamA⟩
